import Mathlib

/-!
Verification of the markup-to-document compiler in `src/src/d/drafts.py`
(`parse_markup_to_json`, `parse_inline_formatting`) and its duplicate in
`src/examples/python/draft_create.py`.

The Python code is shallowly embedded: Python strings become `String` or
`List Char`, the dicts built by the code become the structures/inductives
below (field order follows the dict key order in the source), and the few
`re` patterns the code uses are modelled by dedicated scanning functions
that implement exactly the leftmost, non-overlapping, lazy/greedy matching
Python's `re.finditer` / `re.match` / `re.split` perform on these concrete
patterns.  Scanning functions take a fuel argument (always called with
`length + 1`, enough for the scan position that strictly increases at each
step) so that every definition is structurally recursive and kernel
reducible.

Known deviations, none observable by the claims under verification:
`\d` and `str.lower` are modelled at ASCII level (Python additionally
handles non-ASCII Unicode decimal digits and case mappings).
-/

/-- Characters Python treats as whitespace, both for `str.strip()` and for
the regex class `\s` (Unicode mode): ASCII whitespace, the C1/latin-1
whitespace controls, and the Unicode space separators. -/
def pyIsSpace (c : Char) : Bool :=
  c = ' ' ∨ c = '\t' ∨ c = '\n' ∨ c = '\r' ∨
  c = Char.ofNat 0x0b ∨ c = Char.ofNat 0x0c ∨
  (0x1c ≤ c.toNat ∧ c.toNat ≤ 0x1f) ∨
  c = Char.ofNat 0x85 ∨ c = Char.ofNat 0xa0 ∨ c = Char.ofNat 0x1680 ∨
  (0x2000 ≤ c.toNat ∧ c.toNat ≤ 0x200a) ∨
  c = Char.ofNat 0x2028 ∨ c = Char.ofNat 0x2029 ∨
  c = Char.ofNat 0x202f ∨ c = Char.ofNat 0x205f ∨ c = Char.ofNat 0x3000

/-- Python `str.strip()`: drop whitespace from both ends. -/
def pyStrip (l : List Char) : List Char :=
  ((l.dropWhile pyIsSpace).reverse.dropWhile pyIsSpace).reverse

/-- Python `str.split(sep)` for a one-character separator `sep`:
all pieces are kept, including empty ones. -/
def splitChar (sep : Char) : List Char → List (List Char)
  | [] => [[]]
  | c :: cs =>
    match splitChar sep cs with
    | [] => [[]]
    | r :: rs => if c = sep then [] :: r :: rs else (c :: r) :: rs

/-- Python `str.split(sep, 1)` for a two-character separator `c1 c2`
(used for `'::'`, `'->'`, `'>>'`): `some (before, after)` splits at the
first occurrence, `none` means the separator does not occur
(Python's `sep in s` test). -/
def splitOnFirst2 (c1 c2 : Char) : List Char → Option (List Char × List Char)
  | a :: b :: rest =>
    if a = c1 ∧ b = c2 then some ([], rest)
    else (splitOnFirst2 c1 c2 (b :: rest)).map (fun pr => (a :: pr.1, pr.2))
  | _ => none

/-- Python `str.split(sep, 1)` for a one-character separator (used for the
`Code::` block's `block_content.split('|', 1)`): `none` when the separator
is absent (Python then returns the single-element list). -/
def splitOnFirstChar (sep : Char) : List Char → Option (List Char × List Char)
  | [] => none
  | a :: rest =>
    if a = sep then some ([], rest)
    else (splitOnFirstChar sep rest).map (fun pr => (a :: pr.1, pr.2))

/-- Decimal value of a digit string, as Python `int()` computes it on the
digits captured by `(\d+)`. -/
def digitsToNat (l : List Char) : Nat :=
  l.foldl (fun acc c => acc * 10 + (c.toNat - ('0').toNat)) 0

/-- Python `re.match(r'\[(\d+)\]\s*(.*)', s)` from the `Footnote::` branch:
an anchored match of `[<digits>]`, then skipped whitespace, then the rest of
the line (`.` does not cross a newline).  Returns the two groups
(`int(group(1))`, `group(2)`) or `none` when the prefix does not match. -/
def fnMatch (l : List Char) : Option (Nat × List Char) :=
  match l with
  | '[' :: rest =>
    let ds := rest.takeWhile Char.isDigit
    let rest2 := rest.dropWhile Char.isDigit
    if ds = [] then none
    else
      match rest2 with
      | ']' :: rest3 =>
        some (digitsToNat ds, (rest3.dropWhile pyIsSpace).takeWhile (· ≠ '\n'))
      | _ => none
  | _ => none

/-- One scanning step of Python `re.split(r'\d+\.', s)`: `acc` is the piece
being accumulated (reversed).  A maximal digit run followed by `'.'` is a
match (greedy `\d+` can only succeed at the full run, shorter runs are
followed by a digit, not `'.'`); a digit run not followed by `'.'` can
contain no match start, so it is consumed whole. -/
def splitNumDotGo : Nat → List Char → List Char → List (List Char)
  | 0, _, acc => [acc.reverse]
  | _fuel + 1, [], acc => [acc.reverse]
  | fuel + 1, c :: rest, acc =>
    if c.isDigit then
      match (c :: rest).dropWhile Char.isDigit with
      | '.' :: rest2 => acc.reverse :: splitNumDotGo fuel rest2 []
      | after => splitNumDotGo fuel after (((c :: rest).takeWhile Char.isDigit).reverse ++ acc)
    else splitNumDotGo fuel rest (c :: acc)

/-- Python `re.split(r'\d+\.', s)` from the `NumberList::` branch. -/
def splitNumDot (l : List Char) : List (List Char) :=
  splitNumDotGo (l.length + 1) l []

/-- The tag strings `'strong' | 'em' | 'strikethrough' | 'code' | 'link'`
paired with the five inline patterns. -/
inductive FormatType where
  | strong
  | em
  | strikethrough
  | code
  | link
deriving DecidableEq, Repr

/-- A style mark as the code builds it: `{"type": t}` for the four plain
styles, and the link mark `{"type": "link", "attrs": {"href": …,
"target": …, "rel": …, "class": …}}` (fields in dict key order,
`classAttr` standing for the `"class"` key). -/
inductive Mark where
  | strong
  | em
  | strikethrough
  | code
  | link (href : String) (target : String) (rel : String) (classAttr : Option String)
deriving DecidableEq, Repr

/-- The non-link branch `{"type": format_type}` of the inline loop.  The
`link` case is unreachable there (the loop tests for `'link'` first); it is
mapped to a link mark with empty attributes. -/
def plainMark : FormatType → Mark
  | .strong => Mark.strong
  | .em => Mark.em
  | .strikethrough => Mark.strikethrough
  | .code => Mark.code
  | .link => Mark.link "" "" "" none

/-- A text element `{"type": "text", "text": …, "marks": …}`; a missing
`"marks"` key is the empty list. -/
structure TextElem where
  text : String
  marks : List Mark := []
deriving DecidableEq, Repr

/-- One `re` match as the inline loop stores it: `(match.start(),
match.end(), format_type, match)`, the match object being represented by
the spans of its capture groups (`g2s`/`g2e` only meaningful for links). -/
structure PMatch where
  ms : Nat
  me : Nat
  ft : FormatType
  g1s : Nat
  g1e : Nat
  g2s : Nat := 0
  g2e : Nat := 0
deriving DecidableEq, Repr

/-- Lazy search for a closing two-character delimiter `cl cl`: offset of the
first occurrence, failing if a newline is reached first (the `(.*?)` group
cannot cross `'\n'`). -/
def findClose2 (cl : Char) : List Char → Option Nat
  | a :: b :: rest =>
    if a = cl ∧ b = cl then some 0
    else if a = '\n' then none
    else (findClose2 cl (b :: rest)).map (· + 1)
  | _ => none

/-- Lazy search for a closing one-character delimiter, failing at a
newline first (the `(.*?)` group cannot cross `'\n'`). -/
def findClose1 (cl : Char) : List Char → Option Nat
  | [] => none
  | a :: rest =>
    if a = cl then some 0
    else if a = '\n' then none
    else (findClose1 cl rest).map (· + 1)

/-- Offset of the first occurrence of `c` (used for the greedy `[^\]]+` and
`[^)]+` groups, which run exactly up to the next `]` resp. `)`). -/
def firstIdx (c : Char) : List Char → Option Nat
  | [] => none
  | a :: rest => if a = c then some 0 else (firstIdx c rest).map (· + 1)

/-- `re.finditer` for `d d (.*?) d d` (the `\*\*(.*?)\*\*` and `~~(.*?)~~`
patterns): leftmost matches, scanning resumes after each match. -/
def findDouble (d : Char) (ft : FormatType) : Nat → Nat → List Char → List PMatch
  | 0, _, _ => []
  | fuel + 1, pos, a :: b :: rest =>
    if a = d ∧ b = d then
      match findClose2 d rest with
      | some k =>
        { ms := pos, me := pos + k + 4, ft := ft, g1s := pos + 2, g1e := pos + 2 + k } ::
          findDouble d ft fuel (pos + k + 4) (rest.drop (k + 2))
      | none => findDouble d ft fuel (pos + 1) (b :: rest)
    else findDouble d ft fuel (pos + 1) (b :: rest)
  | _, _, _ => []

/-- `re.finditer` for `d (.*?) d` (the `\*(.*?)\*` and `` `(.*?)` ``
patterns). -/
def findSingle (d : Char) (ft : FormatType) : Nat → Nat → List Char → List PMatch
  | 0, _, _ => []
  | fuel + 1, pos, a :: rest =>
    if a = d then
      match findClose1 d rest with
      | some k =>
        { ms := pos, me := pos + k + 2, ft := ft, g1s := pos + 1, g1e := pos + 1 + k } ::
          findSingle d ft fuel (pos + k + 2) (rest.drop (k + 1))
      | none => findSingle d ft fuel (pos + 1) rest
    else findSingle d ft fuel (pos + 1) rest
  | _, _, [] => []

/-- `re.finditer` for `\[([^\]]+)\]\(([^)]+)\)`: at a `'['` the first group
runs to the next `']'` (at least one character), then `'('`, then the second
group runs to the next `')'` (at least one character). -/
def findLink : Nat → Nat → List Char → List PMatch
  | 0, _, _ => []
  | fuel + 1, pos, a :: rest =>
    if a = '[' then
      match firstIdx ']' rest with
      | some j =>
        if 1 ≤ j then
          match rest.drop (j + 1) with
          | '(' :: rest2 =>
            match firstIdx ')' rest2 with
            | some k =>
              if 1 ≤ k then
                { ms := pos, me := pos + j + k + 4, ft := FormatType.link,
                  g1s := pos + 1, g1e := pos + 1 + j,
                  g2s := pos + j + 3, g2e := pos + j + 3 + k } ::
                  findLink fuel (pos + j + k + 4) (rest2.drop (k + 1))
              else findLink fuel (pos + 1) rest
            | none => findLink fuel (pos + 1) rest
          | _ => findLink fuel (pos + 1) rest
        else findLink fuel (pos + 1) rest
      | none => findLink fuel (pos + 1) rest
    else findLink fuel (pos + 1) rest
  | _, _, [] => []

/-- The `matches` list before sorting: every match of every pattern, in
the pattern order of the source (`strong`, `em`, `strikethrough`, `code`,
`link`), each pattern scanned over the whole text independently. -/
def allMatches (l : List Char) : List PMatch :=
  findDouble '*' FormatType.strong (l.length + 1) 0 l ++
  findSingle '*' FormatType.em (l.length + 1) 0 l ++
  findDouble '~' FormatType.strikethrough (l.length + 1) 0 l ++
  findSingle '`' FormatType.code (l.length + 1) 0 l ++
  findLink (l.length + 1) 0 l

/-- Stable insertion used by `sortByStart`: a new element goes in front of
the first element with a start offset `≥` its own, so that elements with
equal starts keep their original relative order (Python's `sort` is
stable). -/
def insertByStart (m : PMatch) : List PMatch → List PMatch
  | [] => [m]
  | x :: xs => if m.ms ≤ x.ms then m :: x :: xs else x :: insertByStart m xs

/-- `matches.sort(key=lambda x: x[0])`: stable sort by start offset. -/
def sortByStart : List PMatch → List PMatch
  | [] => []
  | m :: ms => insertByStart m (sortByStart ms)

/-- A document node as the dicts built by `parse_markup_to_json`
(constructor names are the `"type"` strings of the source; positional
fields follow the dict key order, attributes before children).  The
`Break::` branch appends `{"type": "paragraph"}` with no `"content"` key,
modelled as `paragraph []` — `parse_inline_formatting` never returns an
empty list, so no other paragraph has empty content. -/
inductive Node where
  | heading (level : Nat) (content : List TextElem)
  | paragraph (content : List TextElem)
  | blockquote (content : List Node)
  | pullquote (align : Option String) (color : Option String) (content : List Node)
  | bullet_list (content : List Node)
  | ordered_list (start : Nat) (order : Nat) (content : List Node)
  | list_item (content : List Node)
  | code_block (language : Option String) (content : List TextElem)
  | horizontal_rule
  | button (url : String) (text : String) (action : Option String) (classAttr : Option String)
  | subscribeWidget (url : String) (text : String) (language : String) (content : List Node)
  | captionedShareButton (url : String) (text : String) (content : List Node)
  | ctaCaption (content : List TextElem)
  | latex_block (persistentExpression : String) (id : String)
  | footnote (number : Nat) (content : List Node)

/-- The root value `{"type": "doc", "content": …}`. -/
structure Doc where
  type : String
  content : List Node

namespace Drafts

/-- The match-walking loop of `parse_inline_formatting` in
`src/src/d/drafts.py` (lines 335–373): `pos` is `current_pos`, `l` the
original text.  For each match in sorted order: the gap `text[pos:start]`
is emitted unstyled when `start > pos` and non-empty, then the styled
element for the match's first group (links carry the href from the second
group and the three fixed attributes), and `pos` becomes `end`.  After the
last match the tail `text[pos:]` is emitted unstyled when non-empty. -/
def walkMatches (l : List Char) : List PMatch → Nat → List TextElem
  | [], pos =>
    if pos < l.length then
      let remaining := l.drop pos
      if remaining = [] then [] else [{ text := remaining.asString }]
    else []
  | m :: ms, pos =>
    (if m.ms > pos then
      let plain := (l.drop pos).take (m.ms - pos)
      if plain = [] then [] else [{ text := plain.asString }]
    else []) ++
    (if m.ft = FormatType.link then
      [{ text := ((l.drop m.g1s).take (m.g1e - m.g1s)).asString,
         marks := [Mark.link ((l.drop m.g2s).take (m.g2e - m.g2s)).asString
           "_blank" "noopener noreferrer nofollow" none] }]
    else
      [{ text := ((l.drop m.g1s).take (m.g1e - m.g1s)).asString,
         marks := [plainMark m.ft] }]) ++
    walkMatches l ms m.me

/-- `parse_inline_formatting` of `src/src/d/drafts.py` (lines 312–386):
collect all matches of the five patterns, sort stably by start, walk them,
fall back to a single plain element if nothing was emitted, drop elements
whose text strips to empty, and fall back again if that dropped
everything. -/
def parse_inline_formatting (text : String) : List TextElem :=
  let l := text.data
  let elements := walkMatches l (sortByStart (allMatches l)) 0
  let elements := if elements = [] then [{ text := text }] else elements
  let elements := elements.filter (fun e => pyStrip e.text.data ≠ [])
  if elements = [] then [{ text := text }] else elements

/-- The tag dispatch of the block loop of `parse_markup_to_json` in
`src/src/d/drafts.py` (lines 63–307): the `elif` chain on the
local variables `block_type` (already stripped and lowercased) and
`block_content` (already stripped), here passed as parameters.  Returns the
nodes appended to `content` and the updated `footnote_counter`. -/
def dispatchBlock (counter : Nat) (block_type block_content : List Char) : List Node × Nat :=
  if block_content = [] then ([], counter)
    else if block_type = "title".data then
      ([Node.heading 1 [{ text := block_content.asString }]], counter)
    else if block_type = "subtitle".data then
      ([Node.heading 2 [{ text := block_content.asString }]], counter)
    else if block_type ∈ ["h1".data, "h2".data, "h3".data, "h4".data, "h5".data, "h6".data] then
      ([Node.heading ((block_type.getD 1 '0').toNat - ('0').toNat)
          [{ text := block_content.asString }]], counter)
    else if block_type = "text".data then
      ([Node.paragraph (parse_inline_formatting block_content.asString)], counter)
    else if block_type = "quote".data then
      ([Node.blockquote [Node.paragraph [{ text := block_content.asString }]]], counter)
    else if block_type = "pullquote".data then
      ([Node.pullquote none none [Node.paragraph [{ text := block_content.asString }]]], counter)
    else if block_type = "list".data then
      let items := ((splitChar '•' block_content).map pyStrip).filter (· ≠ [])
      ([Node.bullet_list (items.map (fun item =>
          Node.list_item [Node.paragraph (parse_inline_formatting item.asString)]))], counter)
    else if block_type = "numberlist".data then
      let items := (((splitNumDot block_content).drop 1).map pyStrip).filter (· ≠ [])
      ([Node.ordered_list 1 1 (items.map (fun item =>
          Node.list_item [Node.paragraph (parse_inline_formatting item.asString)]))], counter)
    else if block_type = "code".data then
      match splitOnFirstChar '|' block_content with
      | some (p1, p2) =>
        ([Node.code_block (if pyStrip p1 = [] then none else some (pyStrip p1).asString)
            [{ text := (pyStrip p2).asString }]], counter)
      | none =>
        ([Node.code_block none [{ text := block_content.asString }]], counter)
    else if block_type = "rule".data then
      ([Node.horizontal_rule], counter)
    else if block_type = "button".data then
      match splitOnFirst2 '-' '>' block_content with
      | some (tx, url) =>
        ([Node.button (pyStrip url).asString (pyStrip tx).asString none none], counter)
      | none =>
        ([Node.button "#" block_content.asString none none], counter)
    else if block_type = "subscribe".data then
      ([Node.button "%%checkout_url%%" block_content.asString none none], counter)
    else if block_type = "share".data then
      ([Node.button "%%share_url%%" block_content.asString none none], counter)
    else if block_type = "comment".data then
      ([Node.button "%%half_magic_comments_url%%" block_content.asString none none], counter)
    else if block_type = "subscribewidget".data then
      match splitOnFirst2 '>' '>' block_content with
      | some (bt, desc) =>
        ([Node.subscribeWidget "%%checkout_url%%" (pyStrip bt).asString "en"
            [Node.ctaCaption [{ text := (pyStrip desc).asString }]]], counter)
      | none =>
        ([Node.subscribeWidget "%%checkout_url%%" block_content.asString "en"
            [Node.ctaCaption [{ text := "Subscribe for more content!" }]]], counter)
    else if block_type = "sharewidget".data then
      match splitOnFirst2 '>' '>' block_content with
      | some (bt, desc) =>
        ([Node.captionedShareButton "%%share_url%%" (pyStrip bt).asString
            [Node.ctaCaption [{ text := (pyStrip desc).asString }]]], counter)
      | none =>
        ([Node.captionedShareButton "%%share_url%%" block_content.asString
            [Node.ctaCaption [{ text := "Share this post!" }]]], counter)
    else if block_type = "latex".data then
      ([Node.latex_block block_content.asString ("EQUATION_" ++ Nat.repr counter)], counter + 1)
    else if block_type = "footnote".data then
      match fnMatch block_content with
      | some (num, txt) =>
        ([Node.footnote num [Node.paragraph [{ text := txt.asString }]]], counter)
      | none => ([], counter)
  else if block_type = "break".data then
    ([Node.paragraph []], counter)
  else ([], counter)

/-- One iteration of the `for block in blocks` loop: a block without `'::'`
is an implicit text block; otherwise it is split at the first `'::'` into
`(block_type, block_content)`, both sides are stripped (the tag also
lowercased), and the tag dispatch runs. -/
def buildBlock (counter : Nat) (block : List Char) : List Node × Nat :=
  match splitOnFirst2 ':' ':' block with
  | none => ([Node.paragraph (parse_inline_formatting block.asString)], counter)
  | some (t, rest) => dispatchBlock counter ((pyStrip t).map Char.toLower) (pyStrip rest)

/-- The `for block in blocks` loop: fold `buildBlock` over the blocks,
threading `footnote_counter` (initially 1). -/
def processBlocks : List (List Char) → Nat → List Node
  | [], _ => []
  | b :: bs, counter =>
    (buildBlock counter b).1 ++ processBlocks bs (buildBlock counter b).2

/-- `parse_markup_to_json` of `src/src/d/drafts.py` (lines 40–309):
replace `';'` by `','`, split on `'|'`, strip and drop empty blocks, build
each block's nodes, and wrap them in the `{"type": "doc"}` root. -/
def parse_markup_to_json (markup_text : String) : Doc :=
  let markup := markup_text.data.map (fun c => if c = ';' then ',' else c)
  let blocks := ((splitChar '|' markup).map pyStrip).filter (· ≠ [])
  { type := "doc", content := processBlocks blocks 1 }

end Drafts

namespace DraftCreate

/-- The match-walking loop of `parse_inline_formatting` in
`src/examples/python/draft_create.py` (lines 325–363): `pos` is `current_pos`, `l` the
original text.  For each match in sorted order: the gap `text[pos:start]`
is emitted unstyled when `start > pos` and non-empty, then the styled
element for the match's first group (links carry the href from the second
group and the three fixed attributes), and `pos` becomes `end`.  After the
last match the tail `text[pos:]` is emitted unstyled when non-empty. -/
def walkMatches (l : List Char) : List PMatch → Nat → List TextElem
  | [], pos =>
    if pos < l.length then
      let remaining := l.drop pos
      if remaining = [] then [] else [{ text := remaining.asString }]
    else []
  | m :: ms, pos =>
    (if m.ms > pos then
      let plain := (l.drop pos).take (m.ms - pos)
      if plain = [] then [] else [{ text := plain.asString }]
    else []) ++
    (if m.ft = FormatType.link then
      [{ text := ((l.drop m.g1s).take (m.g1e - m.g1s)).asString,
         marks := [Mark.link ((l.drop m.g2s).take (m.g2e - m.g2s)).asString
           "_blank" "noopener noreferrer nofollow" none] }]
    else
      [{ text := ((l.drop m.g1s).take (m.g1e - m.g1s)).asString,
         marks := [plainMark m.ft] }]) ++
    walkMatches l ms m.me

/-- `parse_inline_formatting` of `src/examples/python/draft_create.py` (lines 302–376):
collect all matches of the five patterns, sort stably by start, walk them,
fall back to a single plain element if nothing was emitted, drop elements
whose text strips to empty, and fall back again if that dropped
everything. -/
def parse_inline_formatting (text : String) : List TextElem :=
  let l := text.data
  let elements := walkMatches l (sortByStart (allMatches l)) 0
  let elements := if elements = [] then [{ text := text }] else elements
  let elements := elements.filter (fun e => pyStrip e.text.data ≠ [])
  if elements = [] then [{ text := text }] else elements

/-- The tag dispatch of the block loop of `parse_markup_to_json` in
`src/examples/python/draft_create.py` (lines 53–297): the `elif` chain on the
local variables `block_type` (already stripped and lowercased) and
`block_content` (already stripped), here passed as parameters.  Returns the
nodes appended to `content` and the updated `footnote_counter`. -/
def dispatchBlock (counter : Nat) (block_type block_content : List Char) : List Node × Nat :=
  if block_content = [] then ([], counter)
    else if block_type = "title".data then
      ([Node.heading 1 [{ text := block_content.asString }]], counter)
    else if block_type = "subtitle".data then
      ([Node.heading 2 [{ text := block_content.asString }]], counter)
    else if block_type ∈ ["h1".data, "h2".data, "h3".data, "h4".data, "h5".data, "h6".data] then
      ([Node.heading ((block_type.getD 1 '0').toNat - ('0').toNat)
          [{ text := block_content.asString }]], counter)
    else if block_type = "text".data then
      ([Node.paragraph (parse_inline_formatting block_content.asString)], counter)
    else if block_type = "quote".data then
      ([Node.blockquote [Node.paragraph [{ text := block_content.asString }]]], counter)
    else if block_type = "pullquote".data then
      ([Node.pullquote none none [Node.paragraph [{ text := block_content.asString }]]], counter)
    else if block_type = "list".data then
      let items := ((splitChar '•' block_content).map pyStrip).filter (· ≠ [])
      ([Node.bullet_list (items.map (fun item =>
          Node.list_item [Node.paragraph (parse_inline_formatting item.asString)]))], counter)
    else if block_type = "numberlist".data then
      let items := (((splitNumDot block_content).drop 1).map pyStrip).filter (· ≠ [])
      ([Node.ordered_list 1 1 (items.map (fun item =>
          Node.list_item [Node.paragraph (parse_inline_formatting item.asString)]))], counter)
    else if block_type = "code".data then
      match splitOnFirstChar '|' block_content with
      | some (p1, p2) =>
        ([Node.code_block (if pyStrip p1 = [] then none else some (pyStrip p1).asString)
            [{ text := (pyStrip p2).asString }]], counter)
      | none =>
        ([Node.code_block none [{ text := block_content.asString }]], counter)
    else if block_type = "rule".data then
      ([Node.horizontal_rule], counter)
    else if block_type = "button".data then
      match splitOnFirst2 '-' '>' block_content with
      | some (tx, url) =>
        ([Node.button (pyStrip url).asString (pyStrip tx).asString none none], counter)
      | none =>
        ([Node.button "#" block_content.asString none none], counter)
    else if block_type = "subscribe".data then
      ([Node.button "%%checkout_url%%" block_content.asString none none], counter)
    else if block_type = "share".data then
      ([Node.button "%%share_url%%" block_content.asString none none], counter)
    else if block_type = "comment".data then
      ([Node.button "%%half_magic_comments_url%%" block_content.asString none none], counter)
    else if block_type = "subscribewidget".data then
      match splitOnFirst2 '>' '>' block_content with
      | some (bt, desc) =>
        ([Node.subscribeWidget "%%checkout_url%%" (pyStrip bt).asString "en"
            [Node.ctaCaption [{ text := (pyStrip desc).asString }]]], counter)
      | none =>
        ([Node.subscribeWidget "%%checkout_url%%" block_content.asString "en"
            [Node.ctaCaption [{ text := "Subscribe for more content!" }]]], counter)
    else if block_type = "sharewidget".data then
      match splitOnFirst2 '>' '>' block_content with
      | some (bt, desc) =>
        ([Node.captionedShareButton "%%share_url%%" (pyStrip bt).asString
            [Node.ctaCaption [{ text := (pyStrip desc).asString }]]], counter)
      | none =>
        ([Node.captionedShareButton "%%share_url%%" block_content.asString
            [Node.ctaCaption [{ text := "Share this post!" }]]], counter)
    else if block_type = "latex".data then
      ([Node.latex_block block_content.asString ("EQUATION_" ++ Nat.repr counter)], counter + 1)
    else if block_type = "footnote".data then
      match fnMatch block_content with
      | some (num, txt) =>
        ([Node.footnote num [Node.paragraph [{ text := txt.asString }]]], counter)
      | none => ([], counter)
  else if block_type = "break".data then
    ([Node.paragraph []], counter)
  else ([], counter)

/-- One iteration of the `for block in blocks` loop: a block without `'::'`
is an implicit text block; otherwise it is split at the first `'::'` into
`(block_type, block_content)`, both sides are stripped (the tag also
lowercased), and the tag dispatch runs. -/
def buildBlock (counter : Nat) (block : List Char) : List Node × Nat :=
  match splitOnFirst2 ':' ':' block with
  | none => ([Node.paragraph (parse_inline_formatting block.asString)], counter)
  | some (t, rest) => dispatchBlock counter ((pyStrip t).map Char.toLower) (pyStrip rest)

/-- The `for block in blocks` loop: fold `buildBlock` over the blocks,
threading `footnote_counter` (initially 1). -/
def processBlocks : List (List Char) → Nat → List Node
  | [], _ => []
  | b :: bs, counter =>
    (buildBlock counter b).1 ++ processBlocks bs (buildBlock counter b).2

/-- `parse_markup_to_json` of `src/examples/python/draft_create.py` (lines 30–299):
replace `';'` by `','`, split on `'|'`, strip and drop empty blocks, build
each block's nodes, and wrap them in the `{"type": "doc"}` root. -/
def parse_markup_to_json (markup_text : String) : Doc :=
  let markup := markup_text.data.map (fun c => if c = ';' then ',' else c)
  let blocks := ((splitChar '|' markup).map pyStrip).filter (· ≠ [])
  { type := "doc", content := processBlocks blocks 1 }

end DraftCreate

/-- Concatenation of the texts of a run sequence, ignoring marks. -/
def concatText (runs : List TextElem) : List Char :=
  runs.foldr (fun e acc => e.text.data ++ acc) []

/-- The ids of the `latex_block` nodes of a node list, in document order
(the compiler only ever appends `latex_block` nodes at the top level). -/
def latexIds (ns : List Node) : List String :=
  ns.filterMap fun n =>
    match n with
    | Node.latex_block _ i => some i
    | _ => none

/-- The id sequence `EQUATION_c, EQUATION_(c+1), …` of length `n`. -/
def eqIdsFrom : Nat → Nat → List String
  | _, 0 => []
  | c, n + 1 => ("EQUATION_" ++ Nat.repr c) :: eqIdsFrom (c + 1) n

theorem mem_of_mem_dropWhile {p : Char → Bool} {l : List Char} {a : Char}
    (h : a ∈ l.dropWhile p) : a ∈ l := by
  induction l with
  | nil => simp [List.dropWhile] at h
  | cons c cs ih =>
    rw [List.dropWhile] at h
    by_cases hc : p c
    · simp only [hc] at h
      exact List.mem_cons_of_mem c (ih h)
    · simp only [hc] at h
      simpa using h

theorem mem_of_mem_pyStrip {l : List Char} {a : Char} (h : a ∈ pyStrip l) : a ∈ l := by
  unfold pyStrip at h
  rw [List.mem_reverse] at h
  have h2 := mem_of_mem_dropWhile h
  rw [List.mem_reverse] at h2
  exact mem_of_mem_dropWhile h2

theorem splitChar_not_mem {sep : Char} {l : List Char} :
    ∀ piece ∈ splitChar sep l, sep ∉ piece := by
  induction l with
  | nil =>
    intro piece hp
    simp only [splitChar, List.mem_singleton] at hp
    simp [hp]
  | cons c cs ih =>
    intro piece hp
    rw [splitChar] at hp
    rcases hr : splitChar sep cs with _ | ⟨r, rs⟩
    · rw [hr] at hp
      simp only [List.mem_singleton] at hp
      simp [hp]
    · rw [hr] at hp
      rw [hr] at ih
      by_cases hc : c = sep
      · simp only [if_pos hc, List.mem_cons] at hp
        rcases hp with hp | hp | hp
        · simp [hp]
        · subst hp
          exact ih _ (List.mem_cons_self _ _)
        · exact ih piece (List.mem_cons_of_mem r hp)
      · simp only [if_neg hc, List.mem_cons] at hp
        rcases hp with hp | hp
        · subst hp
          intro hmem
          rw [List.mem_cons] at hmem
          rcases hmem with hmem | hmem
          · exact hc hmem.symm
          · exact ih r (List.mem_cons_self r rs) hmem
        · exact ih piece (List.mem_cons_of_mem r hp)

theorem splitOnFirst2_mem {c1 c2 : Char} {l x y : List Char}
    (h : splitOnFirst2 c1 c2 l = some (x, y)) :
    (∀ a ∈ x, a ∈ l) ∧ (∀ a ∈ y, a ∈ l) := by
  induction l generalizing x y with
  | nil => simp [splitOnFirst2] at h
  | cons a rest ih =>
    match rest, h with
    | [], h => simp [splitOnFirst2] at h
    | b :: rest, h =>
      rw [splitOnFirst2] at h
      by_cases hab : a = c1 ∧ b = c2
      · rw [if_pos hab] at h
        injection h with h
        injection h with h1 h2
        subst h1; subst h2
        exact ⟨fun a ha => absurd ha (List.not_mem_nil a),
          fun a ha => List.mem_cons_of_mem _ (List.mem_cons_of_mem _ ha)⟩
      · rw [if_neg hab] at h
        rcases ho : splitOnFirst2 c1 c2 (b :: rest) with _ | ⟨x0, y0⟩
        · rw [ho] at h; simp at h
        · rw [ho] at h
          simp only [Option.map] at h
          injection h with h
          injection h with h1 h2
          obtain ⟨ihx, ihy⟩ := ih ho
          constructor
          · intro u hu
            rw [← h1, List.mem_cons] at hu
            rcases hu with rfl | hu
            · exact List.mem_cons_self _ _
            · exact List.mem_cons_of_mem _ (ihx u hu)
          · intro u hu
            rw [← h2] at hu
            exact List.mem_cons_of_mem _ (ihy u hu)

theorem splitOnFirstChar_eq_none {sep : Char} {l : List Char} (h : sep ∉ l) :
    splitOnFirstChar sep l = none := by
  induction l with
  | nil => rfl
  | cons a rest ih =>
    rw [splitOnFirstChar]
    rw [if_neg (fun ha : a = sep => h (ha ▸ List.mem_cons_self a rest))]
    rw [ih (fun hmem => h (List.mem_cons_of_mem a hmem))]
    rfl

theorem b_of_single (n0 : Node)
    (h : ∀ lang cont, n0 = Node.code_block lang cont → lang = none) :
    ∀ n ∈ [n0], ∀ lang cont, n = Node.code_block lang cont → lang = none := by
  intro n hn lang cont heq
  rw [List.mem_singleton] at hn
  subst hn
  exact h lang cont heq

theorem dispatchBlock_cases (c : Nat) (bt bc : List Char) :
    (((Drafts.dispatchBlock c bt bc).2 = c ∧ latexIds (Drafts.dispatchBlock c bt bc).1 = []) ∨
      ((Drafts.dispatchBlock c bt bc).2 = c + 1 ∧
        latexIds (Drafts.dispatchBlock c bt bc).1 = ["EQUATION_" ++ Nat.repr c])) ∧
    ('|' ∉ bc → ∀ n ∈ (Drafts.dispatchBlock c bt bc).1,
      ∀ lang cont, n = Node.code_block lang cont → lang = none) ∧
    (bt = "footnote".data → fnMatch bc = none →
      Drafts.dispatchBlock c bt bc = ([], c)) := by
  unfold Drafts.dispatchBlock
  by_cases h0 : bc = []
  · rw [if_pos h0]
    exact ⟨Or.inl ⟨rfl, rfl⟩, fun _ n hn => absurd hn (List.not_mem_nil n), fun _ _ => rfl⟩
  rw [if_neg h0]
  by_cases h1 : bt = "title".data
  · rw [if_pos h1]
    exact ⟨Or.inl ⟨rfl, rfl⟩, fun _ => b_of_single _ (fun lang cont heq => Node.noConfusion heq),
      fun hbt _ => absurd (hbt.symm.trans h1) (by decide)⟩
  rw [if_neg h1]
  by_cases h2 : bt = "subtitle".data
  · rw [if_pos h2]
    exact ⟨Or.inl ⟨rfl, rfl⟩, fun _ => b_of_single _ (fun lang cont heq => Node.noConfusion heq),
      fun hbt _ => absurd (hbt.symm.trans h2) (by decide)⟩
  rw [if_neg h2]
  by_cases h3 : bt ∈ ["h1".data, "h2".data, "h3".data, "h4".data, "h5".data, "h6".data]
  · rw [if_pos h3]
    exact ⟨Or.inl ⟨rfl, rfl⟩, fun _ => b_of_single _ (fun lang cont heq => Node.noConfusion heq),
      fun hbt _ => absurd (hbt ▸ h3) (by decide)⟩
  rw [if_neg h3]
  by_cases h4 : bt = "text".data
  · rw [if_pos h4]
    exact ⟨Or.inl ⟨rfl, rfl⟩, fun _ => b_of_single _ (fun lang cont heq => Node.noConfusion heq),
      fun hbt _ => absurd (hbt.symm.trans h4) (by decide)⟩
  rw [if_neg h4]
  by_cases h5 : bt = "quote".data
  · rw [if_pos h5]
    exact ⟨Or.inl ⟨rfl, rfl⟩, fun _ => b_of_single _ (fun lang cont heq => Node.noConfusion heq),
      fun hbt _ => absurd (hbt.symm.trans h5) (by decide)⟩
  rw [if_neg h5]
  by_cases h6 : bt = "pullquote".data
  · rw [if_pos h6]
    exact ⟨Or.inl ⟨rfl, rfl⟩, fun _ => b_of_single _ (fun lang cont heq => Node.noConfusion heq),
      fun hbt _ => absurd (hbt.symm.trans h6) (by decide)⟩
  rw [if_neg h6]
  by_cases h7 : bt = "list".data
  · rw [if_pos h7]
    exact ⟨Or.inl ⟨rfl, rfl⟩, fun _ => b_of_single _ (fun lang cont heq => Node.noConfusion heq),
      fun hbt _ => absurd (hbt.symm.trans h7) (by decide)⟩
  rw [if_neg h7]
  by_cases h8 : bt = "numberlist".data
  · rw [if_pos h8]
    exact ⟨Or.inl ⟨rfl, rfl⟩, fun _ => b_of_single _ (fun lang cont heq => Node.noConfusion heq),
      fun hbt _ => absurd (hbt.symm.trans h8) (by decide)⟩
  rw [if_neg h8]
  by_cases h9 : bt = "code".data
  · rw [if_pos h9]
    rcases hm : splitOnFirstChar '|' bc with _ | ⟨p1, p2⟩
    · exact ⟨Or.inl ⟨rfl, rfl⟩,
        fun _ => b_of_single _ (fun lang cont heq => by injection heq with hl _; exact hl.symm),
        fun hbt _ => absurd (hbt.symm.trans h9) (by decide)⟩
    · refine ⟨Or.inl ⟨rfl, rfl⟩, ?_, fun hbt _ => absurd (hbt.symm.trans h9) (by decide)⟩
      intro hpipe
      simp [splitOnFirstChar_eq_none hpipe] at hm
  rw [if_neg h9]
  by_cases h10 : bt = "rule".data
  · rw [if_pos h10]
    exact ⟨Or.inl ⟨rfl, rfl⟩, fun _ => b_of_single _ (fun lang cont heq => Node.noConfusion heq),
      fun hbt _ => absurd (hbt.symm.trans h10) (by decide)⟩
  rw [if_neg h10]
  by_cases h11 : bt = "button".data
  · rw [if_pos h11]
    rcases hm : splitOnFirst2 '-' '>' bc with _ | ⟨tx, url⟩ <;>
      exact ⟨Or.inl ⟨rfl, rfl⟩, fun _ => b_of_single _ (fun lang cont heq => Node.noConfusion heq),
        fun hbt _ => absurd (hbt.symm.trans h11) (by decide)⟩
  rw [if_neg h11]
  by_cases h12 : bt = "subscribe".data
  · rw [if_pos h12]
    exact ⟨Or.inl ⟨rfl, rfl⟩, fun _ => b_of_single _ (fun lang cont heq => Node.noConfusion heq),
      fun hbt _ => absurd (hbt.symm.trans h12) (by decide)⟩
  rw [if_neg h12]
  by_cases h13 : bt = "share".data
  · rw [if_pos h13]
    exact ⟨Or.inl ⟨rfl, rfl⟩, fun _ => b_of_single _ (fun lang cont heq => Node.noConfusion heq),
      fun hbt _ => absurd (hbt.symm.trans h13) (by decide)⟩
  rw [if_neg h13]
  by_cases h14 : bt = "comment".data
  · rw [if_pos h14]
    exact ⟨Or.inl ⟨rfl, rfl⟩, fun _ => b_of_single _ (fun lang cont heq => Node.noConfusion heq),
      fun hbt _ => absurd (hbt.symm.trans h14) (by decide)⟩
  rw [if_neg h14]
  by_cases h15 : bt = "subscribewidget".data
  · rw [if_pos h15]
    rcases hm : splitOnFirst2 '>' '>' bc with _ | ⟨btx, desc⟩ <;>
      exact ⟨Or.inl ⟨rfl, rfl⟩, fun _ => b_of_single _ (fun lang cont heq => Node.noConfusion heq),
        fun hbt _ => absurd (hbt.symm.trans h15) (by decide)⟩
  rw [if_neg h15]
  by_cases h16 : bt = "sharewidget".data
  · rw [if_pos h16]
    rcases hm : splitOnFirst2 '>' '>' bc with _ | ⟨btx, desc⟩ <;>
      exact ⟨Or.inl ⟨rfl, rfl⟩, fun _ => b_of_single _ (fun lang cont heq => Node.noConfusion heq),
        fun hbt _ => absurd (hbt.symm.trans h16) (by decide)⟩
  rw [if_neg h16]
  by_cases h17 : bt = "latex".data
  · rw [if_pos h17]
    exact ⟨Or.inr ⟨rfl, rfl⟩, fun _ => b_of_single _ (fun lang cont heq => Node.noConfusion heq),
      fun hbt _ => absurd (hbt.symm.trans h17) (by decide)⟩
  rw [if_neg h17]
  by_cases h18 : bt = "footnote".data
  · rw [if_pos h18]
    rcases hm : fnMatch bc with _ | ⟨num, txt⟩
    · exact ⟨Or.inl ⟨rfl, rfl⟩, fun _ n hn => absurd hn (List.not_mem_nil n), fun _ _ => rfl⟩
    · refine ⟨Or.inl ⟨rfl, rfl⟩,
        fun _ => b_of_single _ (fun lang cont heq => Node.noConfusion heq), ?_⟩
      intro _ hfn
      exact Option.noConfusion hfn
  rw [if_neg h18]
  by_cases h19 : bt = "break".data
  · rw [if_pos h19]
    exact ⟨Or.inl ⟨rfl, rfl⟩, fun _ => b_of_single _ (fun lang cont heq => Node.noConfusion heq),
      fun hbt _ => absurd hbt h18⟩
  rw [if_neg h19]
  exact ⟨Or.inl ⟨rfl, rfl⟩, fun _ n hn => absurd hn (List.not_mem_nil n),
    fun hbt _ => absurd hbt h18⟩

theorem buildBlock_latex (c : Nat) (b : List Char) :
    ((Drafts.buildBlock c b).2 = c ∧ latexIds (Drafts.buildBlock c b).1 = []) ∨
    ((Drafts.buildBlock c b).2 = c + 1 ∧
      latexIds (Drafts.buildBlock c b).1 = ["EQUATION_" ++ Nat.repr c]) := by
  unfold Drafts.buildBlock
  rcases h : splitOnFirst2 ':' ':' b with _ | ⟨t, rest⟩
  · exact Or.inl ⟨rfl, rfl⟩
  · exact (dispatchBlock_cases c ((pyStrip t).map Char.toLower) (pyStrip rest)).1

theorem latexIds_append (xs ys : List Node) :
    latexIds (xs ++ ys) = latexIds xs ++ latexIds ys := by
  simp [latexIds, List.filterMap_append]

theorem processBlocks_latexIds (bs : List (List Char)) : ∀ c : Nat,
    ∃ n, latexIds (Drafts.processBlocks bs c) = eqIdsFrom c n := by
  induction bs with
  | nil => intro c; exact ⟨0, rfl⟩
  | cons b bs ih =>
    intro c
    rw [Drafts.processBlocks, latexIds_append]
    obtain ⟨n, hn⟩ := ih (Drafts.buildBlock c b).2
    rcases buildBlock_latex c b with ⟨h2, h1⟩ | ⟨h2, h1⟩
    · rw [h1, hn, h2]
      exact ⟨n, List.nil_append _⟩
    · rw [h1, hn, h2]
      exact ⟨n + 1, rfl⟩

theorem map_congr_fn {α β : Type} {f g : α → β} (h : ∀ a, f a = g a) (l : List α) :
    l.map f = l.map g := by
  rw [funext h]

theorem eqIdsFrom_eq_range : ∀ (n c : Nat),
    eqIdsFrom c n = (List.range n).map (fun k => "EQUATION_" ++ Nat.repr (c + k)) := by
  intro n
  induction n with
  | zero => intro c; simp [eqIdsFrom]
  | succ n ih =>
    intro c
    rw [eqIdsFrom, ih (c + 1), List.range_succ_eq_map, List.map_cons, List.map_map]
    refine congrArg₂ List.cons (by simp) ?_
    exact map_congr_fn (fun k => by simp [Function.comp, Nat.add_assoc, Nat.add_comm 1 k]) _

/-- Claim C7: within one compile call the footnote counter starts at 1 and
is incremented exactly once per `latex` block, so the ids of the
`latex_block` nodes, in block order, are `EQUATION_1, EQUATION_2, …`: the
k-th latex block synthesizes `EQUATION_k`.  The counter is a parameter of
the pure function, hence trivially local to the call, so the first latex
block of every invocation gets `EQUATION_1`. -/
theorem latex_ids_sequential (s : String) :
    latexIds (Drafts.parse_markup_to_json s).content =
      (List.range (latexIds (Drafts.parse_markup_to_json s).content).length).map
        (fun k => "EQUATION_" ++ Nat.repr (k + 1)) := by
  obtain ⟨n, hn⟩ := processBlocks_latexIds
    (((splitChar '|' (s.data.map (fun c => if c = ';' then ',' else c))).map pyStrip).filter
      (· ≠ [])) 1
  have hc : latexIds (Drafts.parse_markup_to_json s).content = eqIdsFrom 1 n := hn
  rw [hc, eqIdsFrom_eq_range, List.length_map, List.length_range]
  exact map_congr_fn (fun k => by rw [Nat.add_comm]) _

theorem buildBlock_code_none (c : Nat) (b : List Char) (hb : '|' ∉ b) :
    ∀ n ∈ (Drafts.buildBlock c b).1, ∀ lang cont, n = Node.code_block lang cont → lang = none := by
  unfold Drafts.buildBlock
  rcases h : splitOnFirst2 ':' ':' b with _ | ⟨t, rest⟩
  · exact b_of_single _ (fun lang cont heq => Node.noConfusion heq)
  · refine (dispatchBlock_cases c ((pyStrip t).map Char.toLower) (pyStrip rest)).2.1 ?_
    intro hmem
    exact hb ((splitOnFirst2_mem h).2 '|' (mem_of_mem_pyStrip hmem))

theorem processBlocks_code_none (bs : List (List Char)) : ∀ c : Nat,
    (∀ b ∈ bs, '|' ∉ b) →
    ∀ n ∈ Drafts.processBlocks bs c, ∀ lang cont, n = Node.code_block lang cont → lang = none := by
  induction bs with
  | nil =>
    intro c _ n hn
    exact absurd hn (List.not_mem_nil n)
  | cons b bs ih =>
    intro c hb n hn
    rw [Drafts.processBlocks, List.mem_append] at hn
    rcases hn with hn | hn
    · exact buildBlock_code_none c b (hb b (List.mem_cons_self b bs)) n hn
    · exact ih _ (fun b2 hb2 => hb b2 (List.mem_cons_of_mem b hb2)) n hn

/-- Claim C9: every `code_block` node produced by `parse_markup_to_json`
has language `none`: the top-level split on `'|'` leaves no `'|'` in any
block, so the two-part `language | code` branch of the `Code::` builder is
unreachable from the compiler.  (`code_block` nodes are only constructed
at the top level of the content list.) -/
theorem code_block_language_none (s : String) :
    ∀ n ∈ (Drafts.parse_markup_to_json s).content,
      ∀ lang cont, n = Node.code_block lang cont → lang = none := by
  intro n hn
  have hb : ∀ b ∈ ((splitChar '|' (s.data.map (fun c => if c = ';' then ',' else c))).map
      pyStrip).filter (· ≠ []), '|' ∉ b := by
    intro b hbmem
    rw [List.mem_filter, List.mem_map] at hbmem
    obtain ⟨⟨p, hp, hps⟩, _⟩ := hbmem
    intro hmem
    rw [← hps] at hmem
    exact splitChar_not_mem p hp (mem_of_mem_pyStrip hmem)
  exact processBlocks_code_none _ 1 hb n hn

/-- Claim C9 witness: the compiled `"Code:: x"` contains a `code_block`
node, and its language is `none`. -/
theorem code_block_language_none_witness :
    (Node.code_block none [{ text := "x" }] ∈ (Drafts.parse_markup_to_json "Code:: x").content) ∧
    (none : Option String) = none :=
  have hmem : Node.code_block none [{ text := "x" }] ∈
      (Drafts.parse_markup_to_json "Code:: x").content := List.Mem.head _
  ⟨hmem, code_block_language_none "Code:: x" _ hmem none [{ text := "x" }] rfl⟩

/-- Claim C6: a `Footnote::` block whose (stripped) body does not match the
anchored `\[(\d+)\]\s*(.*)` pattern yields no node and leaves the
counter unchanged (and, being a total function, raises nothing); in
particular `compile "Footnote:: not-bracketed"` is a document with zero
children. -/
theorem footnote_reject :
    (∀ (c : Nat) (block t rest : List Char),
        splitOnFirst2 ':' ':' block = some (t, rest) →
        (pyStrip t).map Char.toLower = "footnote".data →
        fnMatch (pyStrip rest) = none →
        Drafts.buildBlock c block = ([], c)) ∧
    Drafts.parse_markup_to_json "Footnote:: not-bracketed" = { type := "doc", content := [] } := by
  constructor
  · intro c block t rest hsplit htag hfn
    unfold Drafts.buildBlock
    rw [hsplit]
    exact (dispatchBlock_cases c ((pyStrip t).map Char.toLower) (pyStrip rest)).2.2 htag hfn
  · rfl

/-- Claim C6 witness: the universal part applied to the concrete block
`"Footnote:: not-bracketed"` with counter 1. -/
theorem footnote_reject_witness :
    splitOnFirst2 ':' ':' ("Footnote:: not-bracketed").data =
      some (("Footnote").data, (" not-bracketed").data) ∧
    Drafts.buildBlock 1 ("Footnote:: not-bracketed").data = ([], 1) :=
  ⟨rfl, footnote_reject.1 1 _ _ _ rfl rfl rfl⟩

theorem walk_eq (ms : List PMatch) : ∀ (l : List Char) (pos : Nat),
    DraftCreate.walkMatches l ms pos = Drafts.walkMatches l ms pos := by
  induction ms with
  | nil => intro l pos; rfl
  | cons m ms ih =>
    intro l pos
    simp only [DraftCreate.walkMatches, Drafts.walkMatches, ih]

theorem pif_eq (t : String) :
    DraftCreate.parse_inline_formatting t = Drafts.parse_inline_formatting t := by
  simp only [DraftCreate.parse_inline_formatting, Drafts.parse_inline_formatting, walk_eq]

theorem dispatchBlock_eq (c : Nat) (bt bc : List Char) :
    DraftCreate.dispatchBlock c bt bc = Drafts.dispatchBlock c bt bc := by
  simp only [DraftCreate.dispatchBlock, Drafts.dispatchBlock, pif_eq]

theorem buildBlock_eq (c : Nat) (b : List Char) :
    DraftCreate.buildBlock c b = Drafts.buildBlock c b := by
  simp only [DraftCreate.buildBlock, Drafts.buildBlock, pif_eq, dispatchBlock_eq]

theorem processBlocks_eq (bs : List (List Char)) : ∀ c : Nat,
    DraftCreate.processBlocks bs c = Drafts.processBlocks bs c := by
  induction bs with
  | nil => intro c; rfl
  | cons b bs ih =>
    intro c
    simp only [DraftCreate.processBlocks, Drafts.processBlocks, buildBlock_eq, ih]

/-- Claim C10: the two copies of the compiler are extensionally equal:
`parse_markup_to_json` of `src/src/d/drafts.py` and of
`src/examples/python/draft_create.py` agree on every input string, and so
do the two copies of `parse_inline_formatting`.  (The two source ranges
are in fact textually identical.) -/
theorem copies_extensionally_equal :
    (∀ s, Drafts.parse_markup_to_json s = DraftCreate.parse_markup_to_json s) ∧
    (∀ s, Drafts.parse_inline_formatting s = DraftCreate.parse_inline_formatting s) := by
  constructor
  · intro s
    simp only [DraftCreate.parse_markup_to_json, Drafts.parse_markup_to_json, processBlocks_eq]
  · intro s
    exact (pif_eq s).symm

theorem walkMatches_slices (l : List Char) (ms : List PMatch) : ∀ (pos : Nat),
    ∀ e ∈ Drafts.walkMatches l ms pos, ∃ a b, e.text = ((l.drop a).take b).asString := by
  induction ms with
  | nil =>
    intro pos e he
    rw [Drafts.walkMatches] at he
    by_cases hp : pos < l.length
    · rw [if_pos hp] at he
      by_cases hr : l.drop pos = []
      · rw [if_pos hr] at he
        exact absurd he (List.not_mem_nil e)
      · rw [if_neg hr, List.mem_singleton] at he
        subst he
        exact ⟨pos, (l.drop pos).length, by rw [List.take_length]⟩
    · rw [if_neg hp] at he
      exact absurd he (List.not_mem_nil e)
  | cons m ms ih =>
    intro pos e he
    rw [Drafts.walkMatches, List.mem_append, List.mem_append] at he
    rcases he with (he | he) | he
    · by_cases hgt : m.ms > pos
      · rw [if_pos hgt] at he
        by_cases hpl : (l.drop pos).take (m.ms - pos) = []
        · rw [if_pos hpl] at he
          exact absurd he (List.not_mem_nil e)
        · rw [if_neg hpl, List.mem_singleton] at he
          subst he
          exact ⟨pos, m.ms - pos, rfl⟩
      · rw [if_neg hgt] at he
        exact absurd he (List.not_mem_nil e)
    · by_cases hft : m.ft = FormatType.link
      · rw [if_pos hft, List.mem_singleton] at he
        subst he
        exact ⟨m.g1s, m.g1e - m.g1s, rfl⟩
      · rw [if_neg hft, List.mem_singleton] at he
        subst he
        exact ⟨m.g1s, m.g1e - m.g1s, rfl⟩
    · exact ih m.me e he

/-- Claim C2, amended: the formatter does not in general partition the
input (see the counterexample), but every run it emits carries a
contiguous slice of the input text: each run text is `drop a` then
`take b` of the input's characters, for some offsets `a, b`. -/
theorem format_runs_are_slices (s : String) :
    ∀ e ∈ Drafts.parse_inline_formatting s,
      ∃ a b, e.text = ((s.data.drop a).take b).asString := by
  intro e he
  simp only [Drafts.parse_inline_formatting] at he
  split at he <;> split at he
  · rw [List.mem_singleton] at he
    subst he
    exact ⟨0, s.data.length, by rw [List.drop_zero, List.take_length]; exact rfl⟩
  · rw [List.mem_filter, List.mem_singleton] at he
    obtain ⟨he, _⟩ := he
    subst he
    exact ⟨0, s.data.length, by rw [List.drop_zero, List.take_length]; exact rfl⟩
  · rw [List.mem_singleton] at he
    subst he
    exact ⟨0, s.data.length, by rw [List.drop_zero, List.take_length]; exact rfl⟩
  · rw [List.mem_filter] at he
    exact walkMatches_slices s.data _ 0 e he.1

/-- Claim C4, amended: for every non-empty input string the formatter
never emits a run with empty text (the claim fails only at the empty
input, where the fallback run contains the original empty text). -/
theorem format_nonempty_runs (text : String) (h : text ≠ "") :
    ∀ e ∈ Drafts.parse_inline_formatting text, e.text ≠ "" := by
  intro e he
  simp only [Drafts.parse_inline_formatting] at he
  split at he <;> split at he
  · rw [List.mem_singleton] at he
    subst he
    exact h
  · rw [List.mem_filter] at he
    exact fun hempty => (of_decide_eq_true he.2) (by rw [hempty]; rfl)
  · rw [List.mem_singleton] at he
    subst he
    exact h
  · rw [List.mem_filter] at he
    exact fun hempty => (of_decide_eq_true he.2) (by rw [hempty]; rfl)

/-- Claim C1: for every string `s`, `parse_markup_to_json s` returns a
well-formed root of type `"doc"` (a `{"type": "doc", "content": …}` value);
never raising is witnessed by `parse_markup_to_json` being a total Lean
function over all of `String`. -/
theorem compile_total_doc_root (s : String) :
    ∃ children, Drafts.parse_markup_to_json s = { type := "doc", content := children } :=
  ⟨(Drafts.parse_markup_to_json s).content, rfl⟩

/-- Claim C2, counterexample: on input `"**b**"` the formatter emits the
runs `[bold "b", plain "b"]`: the overlapping `\*(.*?)\*` matches move the
cursor backwards, so the source character `b` (occurring once in the input)
appears twice in the concatenated run texts — the output is not a
partition of the input minus delimiter characters. -/
theorem format_partition_cex :
    Drafts.parse_inline_formatting "**b**" =
      [{ text := "b", marks := [Mark.strong] }, { text := "b" }] ∧
    List.count (Char.ofNat 98)
      (concatText (Drafts.parse_inline_formatting "**b**")) = 2 ∧
    List.count (Char.ofNat 98) ("**b**").data = 1 :=
  ⟨rfl, by decide, by decide⟩

/-- Claim C2 witness: the amended slice property at input `"a **b** c"` and
its bold run. -/
theorem format_runs_are_slices_witness :
    ({ text := "b", marks := [Mark.strong] } : TextElem) ∈
      Drafts.parse_inline_formatting "a **b** c" ∧
    ∃ a b, ({ text := "b", marks := [Mark.strong] } : TextElem).text =
      ((("a **b** c" : String).data.drop a).take b).asString :=
  have hmem : ({ text := "b", marks := [Mark.strong] } : TextElem) ∈
      Drafts.parse_inline_formatting "a **b** c" := by decide
  ⟨hmem, format_runs_are_slices "a **b** c" _ hmem⟩

/-- Claim C3, counterexample: `format "a **b** c"` does not return the
three claimed runs — the overlapping `\*(.*?)\*` matches additionally
re-emit `"b"` as a plain run. -/
theorem format_bold_three_runs_cex :
    Drafts.parse_inline_formatting "a **b** c" ≠
      [{ text := "a " }, { text := "b", marks := [Mark.strong] }, { text := " c" }] := by
  decide

/-- Claim C3, amended: `format "a **b** c"` returns exactly four runs, in
order: `"a "` plain, `"b"` bold, `"b"` plain (re-emitted because the two
zero-width-group `\*(.*?)\*` matches at offsets 0 and 3 move the cursor
back to 2), and `" c"` plain. -/
theorem format_bold_four_runs :
    Drafts.parse_inline_formatting "a **b** c" =
      [{ text := "a " }, { text := "b", marks := [Mark.strong] },
        { text := "b" }, { text := " c" }] := rfl

/-- Claim C4, counterexample: on the empty input the match loop emits
nothing, the first fallback produces the run `{"text": ""}`, the
empty-after-strip filter removes it, and the second fallback re-emits it —
so the formatter returns a run whose text is empty. -/
theorem format_empty_input_cex :
    Drafts.parse_inline_formatting "" = [{ text := "" }] := rfl

/-- Claim C4 witness: the amended non-empty-run invariant at input
`"abc"`. -/
theorem format_nonempty_runs_witness :
    ("abc" : String) ≠ "" ∧ ({ text := "abc" } : TextElem).text ≠ "" :=
  ⟨by decide, format_nonempty_runs "abc" (by decide) { text := "abc" } (by decide)⟩

/-- Claim C5: `compile "Text:: |  | Text:: x"` and `compile "Text:: x"`
produce the same document — exactly one paragraph containing the single
unstyled run `"x"`; blocks whose body is empty after trimming contribute
no node. -/
theorem compile_drops_empty_blocks :
    Drafts.parse_markup_to_json "Text:: |  | Text:: x" =
      Drafts.parse_markup_to_json "Text:: x" ∧
    (Drafts.parse_markup_to_json "Text:: x").content =
      [Node.paragraph [{ text := "x" }]] :=
  ⟨rfl, rfl⟩

/-- Claim C8: `format "[x](http://y)"` returns exactly one run with text
`"x"` carrying a single link mark with href `"http://y"`, target
`"_blank"`, rel `"noopener noreferrer nofollow"`, and class `none`. -/
theorem format_link_attrs :
    Drafts.parse_inline_formatting "[x](http://y)" =
      [{ text := "x",
         marks := [Mark.link "http://y" "_blank" "noopener noreferrer nofollow" none] }] := rfl
